import Mathlib

/-!
Verification development for the kubesnoop rule evaluation engine
(internal/rules/evaluator.go and its collaborators).

The Go code is shallowly embedded:
* JSON documents (the output of Go `json.Marshal` on the collector
  structs) are the inductive type `Json`;
* `gjson.Get` (the tidwall/gjson library used at evaluator.go:237) is
  `gjsonGet`, covering the dot-separated path core the evaluator relies
  on: literal key lookup, `*`/`?` key wildcards, numeric array indexes
  and the `#` array operator (modifiers, escapes, multipaths and
  `#(...)` queries are not used by this repository's rule corpus);
* the Go `strings` helpers used by the evaluator (`Contains`, `SplitN`
  with limit 2, `TrimSpace`, `Trim`, `HasSuffix`) are the `go*`
  functions, defined over the character lists of Lean strings;
* fallible operations (`RuleEngine.GetRules`, the orchestrator) return
  `Except String`.
-/

/-- A JSON document value. Numbers are `Int`: every numeric field the
collector marshals is an integer. Object fields keep marshal order. -/
inductive Json where
  | null : Json
  | bool (b : Bool) : Json
  | num (n : Int) : Json
  | str (s : String) : Json
  | arr (elems : List Json) : Json
  | obj (fields : List (String × Json)) : Json
deriving Repr

/-- gjson key wildcard matching: `*` matches any run of characters,
`?` matches one character, everything else is literal. -/
def globMatch : List Char → List Char → Bool
  | [], [] => true
  | '*' :: ps, [] => globMatch ps []
  | '*' :: ps, c :: cs => globMatch ps (c :: cs) || globMatch ('*' :: ps) cs
  | '?' :: _, [] => false
  | '?' :: ps, _ :: cs => globMatch ps cs
  | _ :: _, [] => false
  | [], _ :: _ => false
  | p :: ps, c :: cs => p == c && globMatch ps cs
termination_by p k => (p.length, k.length)

/-- Split a gjson path on `.` separators (the paths in this repository
contain no `\` escapes, `|` pipes, modifiers or multipaths). -/
def splitOnDot : List Char → List (List Char)
  | [] => [[]]
  | '.' :: rest => [] :: splitOnDot rest
  | c :: rest =>
    match splitOnDot rest with
    | [] => [[c]]
    | comp :: comps => (c :: comp) :: comps

/-- One gjson path component applied to an object: a component with a
`*` or `?` wildcard pattern-matches keys, otherwise the key must be
equal; the first matching field (document order) wins. -/
def objLookup (fields : List (String × Json)) (comp : List Char) : Option Json :=
  if comp.contains '*' || comp.contains '?' then
    (fields.find? (fun kv => globMatch comp kv.1.data)).map (fun kv => kv.2)
  else
    (fields.find? (fun kv => kv.1.data == comp)).map (fun kv => kv.2)

/-- A path component that is all digits is a gjson array index. -/
def parseArrayIndex (comp : List Char) : Option Nat :=
  if comp ≠ [] && comp.all (fun c => c.isDigit) then
    some (comp.foldl (fun n c => n * 10 + (c.toNat - '0'.toNat)) 0)
  else none

/-- Walk a parsed gjson path through a document. `none` is gjson's
"result does not exist". On arrays, `#` alone yields the length and
`#`-then-more collects the existing results over the elements; any
other component must be a numeric index. Scalars end every path. -/
def gjsonWalk : List (List Char) → Json → Option Json
  | [], v => some v
  | comp :: rest, Json.obj fields =>
    match objLookup fields comp with
    | some v => gjsonWalk rest v
    | none => none
  | comp :: rest, Json.arr elems =>
    if comp = ['#'] then
      match rest with
      | [] => some (Json.num (Int.ofNat elems.length))
      | _ :: _ => some (Json.arr (elems.filterMap (fun v => gjsonWalk rest v)))
    else
      match parseArrayIndex comp with
      | some i =>
        match elems[i]? with
        | some v => gjsonWalk rest v
        | none => none
      | none => none
  | _ :: _, _ => none

/-- `gjson.Get` on a marshaled document: parse the path and walk. -/
def gjsonGet (doc : Json) (path : String) : Option Json :=
  gjsonWalk (splitOnDot path.data) doc

/-- Go `unicode.IsSpace` restricted to the characters that can occur
in this repository's rule conditions (ASCII whitespace). -/
def goIsSpace (c : Char) : Bool :=
  c == ' ' || c == '\t' || c == '\n' || c == '\x0b' || c == '\x0c' || c == '\r'

/-- Trim characters satisfying `p` from both ends of a string
(Go `strings.Trim` / `strings.TrimSpace` with a predicate cutset). -/
def goTrimChars (p : Char → Bool) (s : String) : String :=
  ⟨((s.data.dropWhile p).reverse.dropWhile p).reverse⟩

/-- Go `strings.TrimSpace`. -/
def goTrimSpace (s : String) : String := goTrimChars goIsSpace s

/-- The cutset `"'\""` used at evaluator.go:287. -/
def isQuoteChar (c : Char) : Bool := c == '\'' || c == '"'

/-- Go `strings.Trim(s, "'\"")`. -/
def goTrimQuotes (s : String) : String := goTrimChars isQuoteChar s

/-- Split at the first occurrence of `sep`, returning the parts before
and after it; `none` when `sep` does not occur. -/
def firstSplit (sep : List Char) : List Char → Option (List Char × List Char)
  | [] => if sep.isEmpty then some ([], []) else none
  | c :: rest =>
    if sep.isPrefixOf (c :: rest) then some ([], (c :: rest).drop sep.length)
    else
      match firstSplit sep rest with
      | some (pre, post) => some (c :: pre, post)
      | none => none

/-- Go `strings.SplitN(s, sep, 2)` in `Option` form: `none` mirrors the
one-element result Go returns when `sep` does not occur. -/
def goSplitN2 (s sep : String) : Option (String × String) :=
  (firstSplit sep.data s.data).map (fun p => (⟨p.1⟩, ⟨p.2⟩))

/-- Go `strings.Contains`. -/
def goContains (s sub : String) : Bool :=
  (goSplitN2 s sub).isSome

/-- Go `strings.HasSuffix`. -/
def goHasSuffix (s suffix : String) : Bool :=
  suffix.data.isSuffixOf s.data

/-- gjson `Result.Exists()`: `none` is the only non-existent result
(a JSON `null` value exists, with raw text `"null"`). -/
def resultExists (v : Option Json) : Bool := v.isSome

/-- Serialize a document the way compact `json.Marshal` output looks
(string contents in this development need no escaping); used only for
gjson's `Result.Raw`-based `String()` on composite results. -/
def renderJson : Json → String
  | Json.null => "null"
  | Json.bool true => "true"
  | Json.bool false => "false"
  | Json.num n => toString n
  | Json.str s => "\"" ++ s ++ "\""
  | Json.arr elems =>
    "[" ++ String.intercalate "," (elems.attach.map (fun v => renderJson v.1)) ++ "]"
  | Json.obj fields =>
    "\x7b" ++
      String.intercalate ","
        (fields.attach.map (fun kv => "\"" ++ kv.1.1 ++ "\":" ++ renderJson kv.1.2)) ++
      "\x7d"
decreasing_by
  · have := List.sizeOf_lt_of_mem v.2
    simp only [Json.arr.sizeOf_spec]
    omega
  · have h1 := List.sizeOf_lt_of_mem kv.2
    have h2 : sizeOf kv.1.2 < sizeOf kv.1 := by
      obtain ⟨a, b⟩ := kv.1
      simp
    simp only [Json.obj.sizeOf_spec]
    omega

/-- gjson `Result.String()`: `""` for non-existent and `null`,
`true`/`false` for booleans, the raw text for numbers and composites,
the string itself for strings. -/
def resultString : Option Json → String
  | none => ""
  | some Json.null => ""
  | some (Json.bool true) => "true"
  | some (Json.bool false) => "false"
  | some (Json.num n) => toString n
  | some (Json.str s) => s
  | some (Json.arr elems) => renderJson (Json.arr elems)
  | some (Json.obj fields) => renderJson (Json.obj fields)

/-- Go `strconv.ParseBool` after `strings.ToLower`, as gjson's
`Result.Bool()` does for strings (parse failures yield `false`). -/
def parseBoolLower (s : String) : Bool :=
  let l := s.toLower
  l == "1" || l == "t" || l == "true"

/-- gjson `Result.Bool()`. -/
def resultBool : Option Json → Bool
  | some (Json.bool b) => b
  | some (Json.num n) => n != 0
  | some (Json.str s) => parseBoolLower s
  | _ => false

/-- gjson `Result.Int()`: `1` for `true`, the number for numbers, a
parse of the text for strings (this repository's rules never extract
numeric strings, so the float fallback is elided), `0` otherwise —
in particular `0` for every array, object, `null`, `false` and for a
non-existent result. -/
def resultInt : Option Json → Int
  | some (Json.bool true) => 1
  | some (Json.num n) => n
  | some (Json.str s) => (s.toInt?).getD 0
  | _ => 0

/-- gjson `Result.IsArray()`. -/
def resultIsArray : Option Json → Bool
  | some (Json.arr _) => true
  | _ => false

/-- gjson `Result.IsObject()`. -/
def resultIsObject : Option Json → Bool
  | some (Json.obj _) => true
  | _ => false

/-- `len(value.Array())` when the result is an array. -/
def resultArrayLen : Option Json → Nat
  | some (Json.arr elems) => elems.length
  | _ => 0

/-- `len(value.Map())` when the result is an object. -/
def resultMapLen : Option Json → Nat
  | some (Json.obj fields) => fields.length
  | _ => 0

/-- The declarative rule record (rules/engine SecurityRule). -/
structure SecurityRule where
  ID : Int
  Name : String
  Category : String
  Severity : String
  Description : String
  Remediation : String
  RuleType : String
  Query : String
  Condition : String
  Enabled : Bool
  Tags : String
deriving Repr

/-- The result of one rule applied to one resource (rules RuleResult). -/
structure RuleResult where
  Rule : SecurityRule
  Resource : String
  Passed : Bool
  Message : String
  Value : Option Json
deriving Repr

/-- One emitted violation (collector SecurityFinding). -/
structure SecurityFinding where
  Severity : String
  Category : String
  Resource : String
  Message : String
  Remediation : String
deriving Repr

/-- evaluator.go:253-326 `evaluateCondition`, translated clause for
clause: a chain of substring-triggered recognizers, each returning
`(false, description)` on a violation and falling through to
`(true, "")` otherwise. -/
def evaluateCondition (value : Option Json) (condition description : String) :
    Bool × String :=
  let cond := goTrimSpace condition
  if goContains cond "==" then
    match goSplitN2 cond "==" with
    | none => (true, "")
    | some (_, rhs) =>
      let expected := goTrimSpace rhs
      let actual := resultString value
      if expected = "true" then
        if resultBool value then (false, description) else (true, "")
      else if expected = "false" then
        if !(resultBool value) then (false, description) else (true, "")
      else if expected = "null" then
        if !(resultExists value) then (false, description) else (true, "")
      else if expected = "'default'" ∨ expected = "\"default\"" then
        if actual = "default" ∨ actual = "" then (false, description) else (true, "")
      else if expected = "0" then
        if resultInt value = 0 then (false, description) else (true, "")
      else if goTrimQuotes expected = actual then (false, description)
      else (true, "")
  else if goContains cond "null OR" then
    if !(resultExists value) then (false, description)
    else if goContains cond "== 0" && (resultInt value == 0) then (false, description)
    else (true, "")
  else if goContains cond "endsWith" then
    if goContains cond ":latest" && goHasSuffix (resultString value) ":latest" then
      (false, description)
    else (true, "")
  else if goContains cond "NOT contains" then
    if goContains cond ":" && !(goContains (resultString value) ":") then
      (false, description)
    else (true, "")
  else if goContains cond "count == 0" then
    if resultIsArray value && (resultArrayLen value == 0) then (false, description)
    else (true, "")
  else if cond = "null OR empty" then
    if !(resultExists value) || (resultIsObject value && (resultMapLen value == 0)) then
      (false, description)
    else (true, "")
  else (true, "")

/-- evaluator.go:228-250 `evaluateRule`: extract with the rule's query;
an absent value whose condition does not mention `null` short-circuits
to a pass, otherwise the condition evaluator decides. -/
def evaluateRule (rule : SecurityRule) (doc : Json) (resourceName : String) :
    RuleResult :=
  let g := gjsonGet doc rule.Query
  if !(resultExists g) && !(goContains rule.Condition "null") then
    { Rule := rule, Resource := resourceName, Passed := true, Message := "",
      Value := none }
  else
    let r := evaluateCondition g rule.Condition rule.Description
    { Rule := rule, Resource := resourceName, Passed := r.1, Message := r.2,
      Value := g }

/-- collector ContainerInfo. The embedded k8s API payloads
(`SecurityContext`, `Resources`, `Ports`) are carried as the generic
documents they marshal to; `none` models an omitted `omitempty` field. -/
structure ContainerInfo where
  Name : String
  Image : String
  SecurityContext : Option Json
  Resources : Json
  Ports : Option Json
deriving Repr

/-- collector PodInfo, with map- and k8s-typed fields carried as the
documents they marshal to (`none` = omitted `omitempty` field). -/
structure PodInfo where
  Name : String
  Namespace : String
  Labels : Option Json
  Annotations : Option Json
  ServiceAccount : String
  SecurityContext : Option Json
  Containers : List ContainerInfo
  Owner : String
  Phase : String
  HostNetwork : Bool
  HostPID : Bool
  HostIPC : Bool
deriving Repr

/-- collector ServiceInfo (the `type` field is `ServiceType` here
because `Type` is reserved in Lean). -/
structure ServiceInfo where
  Name : String
  Namespace : String
  ServiceType : String
  Ports : Option Json
  Selector : Option Json
  ExternalIPs : Option Json
deriving Repr

/-- collector NamespaceInfo. -/
structure NamespaceInfo where
  Name : String
  Labels : Option Json
  Annotations : Option Json
  Phase : String
deriving Repr

/-- collector NetworkPolicyInfo; the `networkingv1.NetworkPolicySpec`
is carried as the document it marshals to. -/
structure NetworkPolicyInfo where
  Name : String
  Namespace : String
  Spec : Json
deriving Repr

/-- An `rbacv1.ClusterRole`: `Name` is the metadata name the evaluator
reads, `Doc` the document the object marshals to. -/
structure ClusterRoleDoc where
  Name : String
  Doc : Json
deriving Repr

/-- An `rbacv1.Role`: metadata name and namespace plus its document. -/
structure RoleDoc where
  Name : String
  Namespace : String
  Doc : Json
deriving Repr

/-- collector RBACInfo (bindings and service accounts are carried but
never read by the evaluator). -/
structure RBACInfo where
  ClusterRoles : List ClusterRoleDoc
  ClusterRoleBindings : List Json
  Roles : List RoleDoc
  RoleBindings : List Json
  ServiceAccounts : List Json
deriving Repr

/-- collector ClusterInfo restricted to the fields the evaluator reads. -/
structure ClusterInfo where
  Pods : List PodInfo
  Services : List ServiceInfo
  NetworkPolicies : List NetworkPolicyInfo
  RBAC : RBACInfo
  Namespaces : List NamespaceInfo
deriving Repr

/-- An optional (`omitempty`) field contributes nothing when absent. -/
def optField (name : String) : Option Json → List (String × Json)
  | some v => [(name, v)]
  | none => []

/-- `json.Marshal` of a ContainerInfo, with the field names and order
of the struct tags in collector/collector.go. -/
def marshalContainer (c : ContainerInfo) : Json :=
  Json.obj ([("name", Json.str c.Name), ("image", Json.str c.Image)]
    ++ optField "security_context" c.SecurityContext
    ++ [("resources", c.Resources)]
    ++ optField "ports" c.Ports)

/-- `json.Marshal` of a PodInfo (struct-tag names: note
`service_account` and `host_network`, not the JSONPath-style names the
default rules query). -/
def marshalPod (p : PodInfo) : Json :=
  Json.obj ([("name", Json.str p.Name), ("namespace", Json.str p.Namespace)]
    ++ optField "labels" p.Labels
    ++ optField "annotations" p.Annotations
    ++ [("service_account", Json.str p.ServiceAccount)]
    ++ optField "security_context" p.SecurityContext
    ++ [("containers", Json.arr (p.Containers.map marshalContainer))]
    ++ (if p.Owner = "" then [] else [("owner", Json.str p.Owner)])
    ++ [("phase", Json.str p.Phase),
        ("host_network", Json.bool p.HostNetwork),
        ("host_pid", Json.bool p.HostPID),
        ("host_ipc", Json.bool p.HostIPC)])

/-- `json.Marshal` of a ServiceInfo. -/
def marshalService (s : ServiceInfo) : Json :=
  Json.obj ([("name", Json.str s.Name), ("namespace", Json.str s.Namespace),
      ("type", Json.str s.ServiceType)]
    ++ optField "ports" s.Ports
    ++ optField "selector" s.Selector
    ++ optField "external_ips" s.ExternalIPs)

/-- `json.Marshal` of a NetworkPolicyInfo. -/
def marshalPolicy (p : NetworkPolicyInfo) : Json :=
  Json.obj [("name", Json.str p.Name), ("namespace", Json.str p.Namespace),
    ("spec", p.Spec)]

/-- evaluator.go:188-206: the namespace join. The Go code groups the
policy list into a map keyed by namespace (appending preserves input
order per key, so the lookup equals an order-preserving filter) and
marshals the anonymous wrapper struct: the embedded NamespaceInfo
fields are flattened first, then `networkPolicies`, which is the Go
`nil` slice — marshaled as JSON `null` — when no policy matched. -/
def marshalNamespaceJoined (ns : NamespaceInfo)
    (policies : List NetworkPolicyInfo) : Json :=
  let matching := policies.filter (fun p => p.Namespace == ns.Name)
  Json.obj ([("name", Json.str ns.Name)]
    ++ optField "labels" ns.Labels
    ++ optField "annotations" ns.Annotations
    ++ [("phase", Json.str ns.Phase),
        ("networkPolicies",
          if matching.isEmpty then Json.null
          else Json.arr (matching.map marshalPolicy))])

/-- The rule store collaborator (`RuleEngine.GetRules` by rule type):
an `Except.error` is a store/query failure. -/
def RuleStore : Type := String → Except String (List SecurityRule)

/-- The finding built at each of the four append sites in evaluator.go
(severity, category and remediation from the rule, the message from the
rule result). -/
def mkFinding (rule : SecurityRule) (resourceName message : String) :
    SecurityFinding :=
  { Severity := rule.Severity, Category := rule.Category,
    Resource := resourceName, Message := message,
    Remediation := rule.Remediation }

/-- evaluator.go:56-87 `evaluatePods` (the `json.Marshal` of a PodInfo
cannot fail, so the Go `continue` on a marshal error is dead). -/
def evaluatePods (store : RuleStore) (pods : List PodInfo) :
    Except String (List SecurityFinding) :=
  match store "pod" with
  | Except.error e => Except.error e
  | Except.ok rules =>
    Except.ok (pods.foldl (fun findings pod =>
      let podData := marshalPod pod
      let resourceName := "Pod/" ++ pod.Namespace ++ "/" ++ pod.Name
      rules.foldl (fun fs rule =>
        let result := evaluateRule rule podData resourceName
        if !result.Passed then fs ++ [mkFinding rule resourceName result.Message]
        else fs) findings) [])

/-- evaluator.go:89-120 `evaluateServices`. -/
def evaluateServices (store : RuleStore) (services : List ServiceInfo) :
    Except String (List SecurityFinding) :=
  match store "service" with
  | Except.error e => Except.error e
  | Except.ok rules =>
    Except.ok (services.foldl (fun findings svc =>
      let svcData := marshalService svc
      let resourceName := "Service/" ++ svc.Namespace ++ "/" ++ svc.Name
      rules.foldl (fun fs rule =>
        let result := evaluateRule rule svcData resourceName
        if !result.Passed then fs ++ [mkFinding rule resourceName result.Message]
        else fs) findings) [])

/-- evaluator.go:122-177 `evaluateRBAC`: cluster-scoped roles first,
then namespace-scoped roles, appending onto the same findings list. -/
def evaluateRBAC (store : RuleStore) (rbac : RBACInfo) :
    Except String (List SecurityFinding) :=
  match store "rbac" with
  | Except.error e => Except.error e
  | Except.ok rules =>
    let clusterFindings := rbac.ClusterRoles.foldl (fun findings role =>
      let resourceName := "ClusterRole/" ++ role.Name
      rules.foldl (fun fs rule =>
        let result := evaluateRule rule role.Doc resourceName
        if !result.Passed then fs ++ [mkFinding rule resourceName result.Message]
        else fs) findings) []
    Except.ok (rbac.Roles.foldl (fun findings role =>
      let resourceName := "Role/" ++ role.Namespace ++ "/" ++ role.Name
      rules.foldl (fun fs rule =>
        let result := evaluateRule rule role.Doc resourceName
        if !result.Passed then fs ++ [mkFinding rule resourceName result.Message]
        else fs) findings) clusterFindings)

/-- evaluator.go:179-225 `evaluateNamespaces`: join, marshal, evaluate. -/
def evaluateNamespaces (store : RuleStore) (namespaces : List NamespaceInfo)
    (policies : List NetworkPolicyInfo) : Except String (List SecurityFinding) :=
  match store "namespace" with
  | Except.error e => Except.error e
  | Except.ok rules =>
    Except.ok (namespaces.foldl (fun findings ns =>
      let nsData := marshalNamespaceJoined ns policies
      let resourceName := "Namespace/" ++ ns.Name
      rules.foldl (fun fs rule =>
        let result := evaluateRule rule nsData resourceName
        if !result.Passed then fs ++ [mkFinding rule resourceName result.Message]
        else fs) findings) [])

/-- evaluator.go:22-54 `EvaluateClusterInfo`: the four resource types
in order, each error returned immediately (with the Go `nil` findings
slice), successes concatenated. -/
def EvaluateClusterInfo (store : RuleStore) (info : ClusterInfo) :
    Except String (List SecurityFinding) :=
  match evaluatePods store info.Pods with
  | Except.error e => Except.error ("failed to evaluate pod rules: " ++ e)
  | Except.ok podFindings =>
    match evaluateServices store info.Services with
    | Except.error e => Except.error ("failed to evaluate service rules: " ++ e)
    | Except.ok serviceFindings =>
      match evaluateRBAC store info.RBAC with
      | Except.error e => Except.error ("failed to evaluate RBAC rules: " ++ e)
      | Except.ok rbacFindings =>
        match evaluateNamespaces store info.Namespaces info.NetworkPolicies with
        | Except.error e => Except.error ("failed to evaluate namespace rules: " ++ e)
        | Except.ok namespaceFindings =>
          Except.ok (podFindings ++ serviceFindings ++ rbacFindings
            ++ namespaceFindings)

/-- Specification view of one rule applied to one resource: the zero-
or one-element finding list the evaluator appends for it. -/
def ruleFindings (rule : SecurityRule) (doc : Json) (resourceName : String) :
    List SecurityFinding :=
  let result := evaluateRule rule doc resourceName
  if !result.Passed then [mkFinding rule resourceName result.Message] else []

/-- Specification view of the Resource Evaluator (§4.3): findings for
one resource, in the order the rules came from the store. -/
def resourceFindings (rules : List SecurityRule) (doc : Json)
    (resourceName : String) : List SecurityFinding :=
  (rules.map (fun r => ruleFindings r doc resourceName)).flatten

/-- A left fold that only ever appends emits the concatenation, in
input order, of what it appends for each element. -/
theorem foldl_emit_eq {α β : Type} (g : List β → α → List β) (f : α → List β)
    (hg : ∀ acc a, g acc a = acc ++ f a) :
    ∀ (l : List α) (acc : List β), l.foldl g acc = acc ++ (l.map f).flatten := by
  intro l
  induction l with
  | nil => intro acc; simp
  | cons a t ih =>
    intro acc
    simp only [List.foldl_cons, List.map_cons, List.flatten, hg, ih,
      List.append_assoc]

/-- The per-resource rule loop shared by the four evaluators appends
exactly `resourceFindings`. -/
theorem rules_foldl_eq (rules : List SecurityRule) (doc : Json)
    (resourceName : String) (acc : List SecurityFinding) :
    rules.foldl (fun fs rule =>
        let result := evaluateRule rule doc resourceName
        if !result.Passed then fs ++ [mkFinding rule resourceName result.Message]
        else fs) acc
      = acc ++ resourceFindings rules doc resourceName := by
  refine foldl_emit_eq _ (fun r => ruleFindings r doc resourceName) ?_ rules acc
  intro fs rule
  simp only [ruleFindings]
  split
  · rfl
  · simp

/-- `evaluatePods` in specification shape: findings grouped by pod in
collector order, by rule in store order. -/
theorem evaluatePods_eq (store : RuleStore) (rules : List SecurityRule)
    (pods : List PodInfo) (h : store "pod" = Except.ok rules) :
    evaluatePods store pods = Except.ok ((pods.map (fun p =>
      resourceFindings rules (marshalPod p)
        ("Pod/" ++ p.Namespace ++ "/" ++ p.Name))).flatten) := by
  simp only [evaluatePods, h]
  congr 1
  rw [foldl_emit_eq _ (fun p => resourceFindings rules (marshalPod p)
    ("Pod/" ++ p.Namespace ++ "/" ++ p.Name)) (fun acc p => rules_foldl_eq ..)]
  simp

/-- `evaluateServices` in specification shape. -/
theorem evaluateServices_eq (store : RuleStore) (rules : List SecurityRule)
    (services : List ServiceInfo) (h : store "service" = Except.ok rules) :
    evaluateServices store services = Except.ok ((services.map (fun s =>
      resourceFindings rules (marshalService s)
        ("Service/" ++ s.Namespace ++ "/" ++ s.Name))).flatten) := by
  simp only [evaluateServices, h]
  congr 1
  rw [foldl_emit_eq _ (fun s => resourceFindings rules (marshalService s)
    ("Service/" ++ s.Namespace ++ "/" ++ s.Name)) (fun acc s => rules_foldl_eq ..)]
  simp

/-- `evaluateRBAC` in specification shape: all cluster-scoped role
findings, then all namespace-scoped role findings. -/
theorem evaluateRBAC_eq (store : RuleStore) (rules : List SecurityRule)
    (rbac : RBACInfo) (h : store "rbac" = Except.ok rules) :
    evaluateRBAC store rbac = Except.ok (
      (rbac.ClusterRoles.map (fun r =>
        resourceFindings rules r.Doc ("ClusterRole/" ++ r.Name))).flatten
      ++ (rbac.Roles.map (fun r =>
        resourceFindings rules r.Doc
          ("Role/" ++ r.Namespace ++ "/" ++ r.Name))).flatten) := by
  simp only [evaluateRBAC, h]
  congr 1
  rw [foldl_emit_eq _ (fun r : RoleDoc => resourceFindings rules r.Doc
    ("Role/" ++ r.Namespace ++ "/" ++ r.Name)) (fun acc r => rules_foldl_eq ..)]
  rw [foldl_emit_eq _ (fun r : ClusterRoleDoc => resourceFindings rules r.Doc
    ("ClusterRole/" ++ r.Name)) (fun acc r => rules_foldl_eq ..)]
  simp

/-- `evaluateNamespaces` in specification shape: each namespace is
evaluated against its joined document. -/
theorem evaluateNamespaces_eq (store : RuleStore) (rules : List SecurityRule)
    (namespaces : List NamespaceInfo) (policies : List NetworkPolicyInfo)
    (h : store "namespace" = Except.ok rules) :
    evaluateNamespaces store namespaces policies = Except.ok ((namespaces.map
      (fun ns => resourceFindings rules (marshalNamespaceJoined ns policies)
        ("Namespace/" ++ ns.Name))).flatten) := by
  simp only [evaluateNamespaces, h]
  congr 1
  rw [foldl_emit_eq _ (fun ns => resourceFindings rules
    (marshalNamespaceJoined ns policies) ("Namespace/" ++ ns.Name))
    (fun acc ns => rules_foldl_eq ..)]
  simp

/-- Every finding produced for a resource carries that resource's
identifier. -/
theorem mem_resourceFindings_resource {f : SecurityFinding}
    {rules : List SecurityRule} {doc : Json} {resourceName : String}
    (h : f ∈ resourceFindings rules doc resourceName) :
    f.Resource = resourceName := by
  simp only [resourceFindings, List.mem_flatten, List.mem_map] at h
  obtain ⟨l, ⟨r, _, rfl⟩, hfl⟩ := h
  simp only [ruleFindings] at hfl
  split at hfl
  · simp only [List.mem_singleton] at hfl
    subst hfl
    rfl
  · simp at hfl

/-- The repository's default host-network pod rule (engine.go default
rule set): JSONPath-style query, `== true` condition. -/
def ruleHN : SecurityRule :=
  { ID := 5, Name := "host-network-enabled", Category := "network",
    Severity := "MEDIUM", Description := "Pod uses host network",
    Remediation := "Avoid using host network", RuleType := "pod",
    Query := "$.hostNetwork", Condition := "== true", Enabled := true,
    Tags := "" }

/-- The same rule with the gjson-resolvable struct-tag field name. -/
def ruleHNgjson : SecurityRule := { ruleHN with Query := "host_network" }

/-- A store serving only the host-network pod rule. -/
def storeHN : RuleStore :=
  fun t => if t = "pod" then Except.ok [ruleHN] else Except.ok []

/-- A pod running with host networking enabled. -/
def podTrue : PodInfo :=
  { Name := "web", Namespace := "default", Labels := none, Annotations := none,
    ServiceAccount := "default", SecurityContext := none, Containers := [],
    Owner := "", Phase := "Running", HostNetwork := true, HostPID := false,
    HostIPC := false }

/-- The repository's default network-policy namespace rule. -/
def ruleNP : SecurityRule :=
  { ID := 9, Name := "no-network-policies", Category := "network",
    Severity := "MEDIUM",
    Description := "Namespaces should have network policies",
    Remediation := "Define network policies", RuleType := "namespace",
    Query := "$.networkPolicies", Condition := "count == 0", Enabled := true,
    Tags := "" }

/-- A store serving only the network-policy namespace rule. -/
def storeNPa : RuleStore :=
  fun t => if t = "namespace" then Except.ok [ruleNP] else Except.ok []

/-- The same store with the gjson-resolvable form of the query (no
`$.` prefix), isolating the condition-dispatch behavior. -/
def storeNPb : RuleStore :=
  fun t =>
    if t = "namespace" then Except.ok [{ ruleNP with Query := "networkPolicies" }]
    else Except.ok []

/-- A plain namespace. -/
def nsA : NamespaceInfo :=
  { Name := "default", Labels := none, Annotations := none, Phase := "Active" }

/-- A network policy living in namespace `default`. -/
def polA : NetworkPolicyInfo :=
  { Name := "allow-dns", Namespace := "default", Spec := Json.obj [] }

/-- The finding the network-policy rule emits for namespace `default`. -/
def findingNP : SecurityFinding :=
  { Severity := "MEDIUM", Category := "network",
    Resource := "Namespace/default",
    Message := "Namespaces should have network policies",
    Remediation := "Define network policies" }

/-- The finding the resolvable host-network rule emits for the pod. -/
def findingHN : SecurityFinding :=
  { Severity := "MEDIUM", Category := "network",
    Resource := "Pod/default/web", Message := "Pod uses host network",
    Remediation := "Avoid using host network" }

/-- Claim C1, evaluated on the code. The claim fails twice over.
With the rule's own query `$.networkPolicies`, gjson resolves `$` as a
literal key, extraction is absent, and `count == 0` contains no `null`,
so a namespace with zero joined policies produces no Finding (first
conjunct; Scenario C promised one) — and with one joined policy the
outcome is the same (second conjunct). With the gjson-resolvable query
`networkPolicies`, a namespace joined with one policy extracts a
one-element array, but `count == 0` is captured by the `==` recognizer
(its trigger substring is checked first), which compares
`Result.Int() == 0`; `Int()` of any array is 0, so a Finding is
emitted for the non-empty array (third conjunct; the claim says none).
The empty-array branch at evaluator.go:314-317 is unreachable. -/
theorem c1_code_eval :
    evaluateNamespaces storeNPa [nsA] [] = Except.ok []
    ∧ evaluateNamespaces storeNPa [nsA] [polA] = Except.ok []
    ∧ evaluateNamespaces storeNPb [nsA] [polA]
      = Except.ok [findingNP] :=
  ⟨rfl, rfl, rfl⟩

/-- Claim C2, evaluated on the code. gjson has no JSONPath `$.` root
prefix: `$` is looked up as a literal object key, so both spec path
forms yield a non-existent result on documents that match the claim's
hypotheses (first two conjuncts), while the same dotted lookup without
the prefix resolves fine (third conjunct). This contradicts
docs/custom-rules.md, which documents queries as JSONPath and gives
exactly these `$.`-prefixed forms. -/
theorem c2_code_eval :
    gjsonGet (Json.obj [("a", Json.obj [("b", Json.num 1)])]) "$.a.b" = none
    ∧ gjsonGet (Json.obj [("a", Json.arr [Json.obj [("b", Json.num 1)]])])
        "$.a[*].b" = none
    ∧ gjsonGet (Json.obj [("a", Json.obj [("b", Json.num 1)])]) "a.b"
        = some (Json.num 1) :=
  ⟨rfl, rfl, rfl⟩

/-- Claim C4, evaluated on the code. A pod with `HostNetwork = true`
yields zero Findings under the default rule (`$.hostNetwork`,
`== true`): the query does not resolve (gjson treats `$` as a literal
key — and the marshaled field is `host_network` anyway), extraction is
absent, the condition contains no `null`, and the rule short-circuits.
The claim (and spec Scenario A) promised one Finding. -/
theorem c4_code_eval :
    evaluatePods storeHN [podTrue] = Except.ok []
    ∧ evaluatePods storeHN [{ podTrue with HostNetwork := false }]
      = Except.ok []
    ∧ gjsonGet (marshalPod podTrue) "$.hostNetwork" = none :=
  ⟨rfl, rfl, rfl⟩

/-- Claim C5, evaluated on the code. The condition text
`null OR empty` contains the trigger substring `null OR`, so the
priority-2 recognizer captures it and fails only on an absent value:
an Object with zero keys passes (first conjunct), though the claim —
and the unreachable exact-text branch at evaluator.go:319-322 — say it
should produce a Finding. The absent half behaves as claimed (second
conjunct). -/
theorem c5_code_eval :
    evaluateCondition (some (Json.obj [])) "null OR empty" "desc" = (true, "")
    ∧ evaluateCondition none "null OR empty" "desc" = (false, "desc") :=
  ⟨rfl, rfl⟩

/-- Claim C6 counterexample: the condition `== 'default'` fails on a
value whose string form is the empty string, although `""` differs
from the non-empty unquoted literal `default` — the claim says every
such value passes. (evaluator.go:279-281 deliberately also treats an
empty string as the default service account.) -/
theorem c6_counterexample :
    evaluateCondition (some (Json.str "")) "== 'default'" "desc"
      = (false, "desc")
    ∧ resultString (some (Json.str "")) = ""
    ∧ ("" : String) ≠ "default" :=
  ⟨rfl, rfl, by decide⟩

/-- A store whose pod query succeeds with the resolvable host-network
rule and whose service query fails. -/
def storeDown : RuleStore :=
  fun t =>
    if t = "pod" then Except.ok [ruleHNgjson] else Except.error "store down"

/-- A snapshot with one finding-producing pod and nothing else. -/
def infoPodOnly : ClusterInfo :=
  { Pods := [podTrue], Services := [], NetworkPolicies := [],
    RBAC := { ClusterRoles := [], ClusterRoleBindings := [], Roles := [],
              RoleBindings := [], ServiceAccounts := [] },
    Namespaces := [] }

/-- Claim C3 counterexample: pods are processed first and produce a
Finding (first conjunct), then the service rule fetch fails — and the
run returns only the wrapped error, not the pod Finding: the findings
already produced are discarded (evaluator.go:34 returns `nil, err`),
not kept as the claim states. -/
theorem c3_counterexample :
    evaluatePods storeDown infoPodOnly.Pods
      = Except.ok [findingHN]
    ∧ EvaluateClusterInfo storeDown infoPodOnly
      = Except.error "failed to evaluate service rules: store down" :=
  ⟨rfl, rfl⟩

/-- Claim C3 as amended: whichever resource type's rule fetch fails —
pods, services, RBAC or namespaces, each reached when the earlier types
in processing order succeeded — the error is propagated (wrapped with
that type's message prefix) and the findings already produced for the
earlier types are discarded: the caller receives only the error value,
never a partial findings list. -/
theorem c3_amended (store : RuleStore) (info : ClusterInfo) (e : String) :
    (store "pod" = Except.error e →
      EvaluateClusterInfo store info
        = Except.error ("failed to evaluate pod rules: " ++ e))
    ∧ (∀ rp, store "pod" = Except.ok rp →
      store "service" = Except.error e →
      EvaluateClusterInfo store info
        = Except.error ("failed to evaluate service rules: " ++ e))
    ∧ (∀ rp rs, store "pod" = Except.ok rp →
      store "service" = Except.ok rs →
      store "rbac" = Except.error e →
      EvaluateClusterInfo store info
        = Except.error ("failed to evaluate RBAC rules: " ++ e))
    ∧ (∀ rp rs rr, store "pod" = Except.ok rp →
      store "service" = Except.ok rs →
      store "rbac" = Except.ok rr →
      store "namespace" = Except.error e →
      EvaluateClusterInfo store info
        = Except.error ("failed to evaluate namespace rules: " ++ e)) := by
  refine ⟨?_, ?_, ?_, ?_⟩
  · intro hp
    simp only [EvaluateClusterInfo, evaluatePods, hp]
  · intro rp hp hs
    simp only [EvaluateClusterInfo, evaluatePods_eq store rp info.Pods hp,
      evaluateServices, hs]
  · intro rp rs hp hs hr
    simp only [EvaluateClusterInfo, evaluatePods_eq store rp info.Pods hp,
      evaluateServices_eq store rs info.Services hs, evaluateRBAC, hr]
  · intro rp rs rr hp hs hr hn
    simp only [EvaluateClusterInfo, evaluatePods_eq store rp info.Pods hp,
      evaluateServices_eq store rs info.Services hs,
      evaluateRBAC_eq store rr info.RBAC hr, evaluateNamespaces, hn]

/-- Witness for `c3_amended` at the concrete failing store: the pod
pass has already produced a finding, the service fetch fails, and the
run returns only the wrapped error. -/
theorem c3_amended_witness :
    storeDown "pod" = Except.ok [ruleHNgjson]
    ∧ storeDown "service" = Except.error "store down"
    ∧ evaluatePods storeDown infoPodOnly.Pods = Except.ok [findingHN]
    ∧ EvaluateClusterInfo storeDown infoPodOnly
      = Except.error ("failed to evaluate service rules: " ++ "store down") :=
  ⟨rfl, rfl, rfl,
    (c3_amended storeDown infoPodOnly "store down").2.1 [ruleHNgjson] rfl rfl⟩

/-- Claim C7: an absent extraction whose condition text does not
mention `null` short-circuits to a pass before condition dispatch —
the rule result is the untouched pass regardless of the condition. -/
theorem c7_absent_short_circuit (rule : SecurityRule) (doc : Json)
    (resourceName : String)
    (habsent : gjsonGet doc rule.Query = none)
    (hnull : goContains rule.Condition "null" = false) :
    evaluateRule rule doc resourceName
      = { Rule := rule, Resource := resourceName, Passed := true,
          Message := "", Value := none } := by
  simp [evaluateRule, habsent, hnull, resultExists]

/-- Witness for `c7_absent_short_circuit`: the network-policy rule
(whose `count == 0` condition would otherwise fire on this document's
empty array under a resolvable query) applied where extraction is
absent. -/
theorem c7_witness :
    gjsonGet (Json.obj [("networkPolicies", Json.arr [])]) ruleNP.Query = none
    ∧ goContains ruleNP.Condition "null" = false
    ∧ evaluateRule ruleNP (Json.obj [("networkPolicies", Json.arr [])])
        "Namespace/default"
      = { Rule := ruleNP, Resource := "Namespace/default", Passed := true,
          Message := "", Value := none } :=
  ⟨rfl, rfl,
    c7_absent_short_circuit ruleNP (Json.obj [("networkPolicies", Json.arr [])])
      "Namespace/default" rfl rfl⟩

/-- Claim C9: a condition matching none of the recognizers' trigger
substrings is a no-op — the evaluator totally returns a pass with an
empty message. -/
theorem c9_unrecognized_no_op (value : Option Json)
    (condition description : String)
    (h1 : goContains (goTrimSpace condition) "==" = false)
    (h2 : goContains (goTrimSpace condition) "null OR" = false)
    (h3 : goContains (goTrimSpace condition) "endsWith" = false)
    (h4 : goContains (goTrimSpace condition) "NOT contains" = false)
    (h5 : goContains (goTrimSpace condition) "count == 0" = false)
    (h6 : goTrimSpace condition ≠ "null OR empty") :
    evaluateCondition value condition description = (true, "") := by
  simp [evaluateCondition, h1, h2, h3, h4, h5, h6]

/-- Witness for `c9_unrecognized_no_op` on a free-form condition. -/
theorem c9_witness :
    goContains (goTrimSpace "hostPath present") "==" = false
    ∧ goContains (goTrimSpace "hostPath present") "null OR" = false
    ∧ goContains (goTrimSpace "hostPath present") "endsWith" = false
    ∧ goContains (goTrimSpace "hostPath present") "NOT contains" = false
    ∧ goContains (goTrimSpace "hostPath present") "count == 0" = false
    ∧ goTrimSpace "hostPath present" ≠ "null OR empty"
    ∧ evaluateCondition (some (Json.bool true)) "hostPath present" "desc"
      = (true, "") :=
  ⟨rfl, rfl, rfl, rfl, rfl, by decide,
    c9_unrecognized_no_op (some (Json.bool true)) "hostPath present" "desc"
      rfl rfl rfl rfl rfl (by decide)⟩

/-- Claim C8: on a run where every rule fetch succeeds, the full
evaluation returns exactly the concatenation of per-resource findings
in resource-type processing order (pods, services, RBAC with cluster
roles before namespaced roles, namespaces), resource order within each
type as given by the collector, and rule order within each resource as
given by the store. -/
theorem c8_ordering (store : RuleStore) (info : ClusterInfo)
    (rp rs rr rn : List SecurityRule)
    (hp : store "pod" = Except.ok rp)
    (hs : store "service" = Except.ok rs)
    (hr : store "rbac" = Except.ok rr)
    (hn : store "namespace" = Except.ok rn) :
    EvaluateClusterInfo store info = Except.ok (
      (info.Pods.map (fun p => resourceFindings rp (marshalPod p)
        ("Pod/" ++ p.Namespace ++ "/" ++ p.Name))).flatten
      ++ (info.Services.map (fun s => resourceFindings rs (marshalService s)
        ("Service/" ++ s.Namespace ++ "/" ++ s.Name))).flatten
      ++ ((info.RBAC.ClusterRoles.map (fun r => resourceFindings rr r.Doc
            ("ClusterRole/" ++ r.Name))).flatten
          ++ (info.RBAC.Roles.map (fun r => resourceFindings rr r.Doc
            ("Role/" ++ r.Namespace ++ "/" ++ r.Name))).flatten)
      ++ (info.Namespaces.map (fun ns => resourceFindings rn
            (marshalNamespaceJoined ns info.NetworkPolicies)
            ("Namespace/" ++ ns.Name))).flatten) := by
  simp only [EvaluateClusterInfo,
    evaluatePods_eq store rp info.Pods hp,
    evaluateServices_eq store rs info.Services hs,
    evaluateRBAC_eq store rr info.RBAC hr,
    evaluateNamespaces_eq store rn info.Namespaces info.NetworkPolicies hn]

/-- A store that serves the resolvable host-network rule for every
resource type. -/
def storeUniform : RuleStore := fun _ => Except.ok [ruleHNgjson]

/-- A small snapshot exercising all four resource types. -/
def infoSmall : ClusterInfo :=
  { Pods := [podTrue], Services := [], NetworkPolicies := [polA],
    RBAC := { ClusterRoles := [], ClusterRoleBindings := [], Roles := [],
              RoleBindings := [], ServiceAccounts := [] },
    Namespaces := [nsA] }

/-- Witness for `c8_ordering` on the small snapshot. -/
theorem c8_ordering_witness :
    storeUniform "pod" = Except.ok [ruleHNgjson]
    ∧ storeUniform "service" = Except.ok [ruleHNgjson]
    ∧ storeUniform "rbac" = Except.ok [ruleHNgjson]
    ∧ storeUniform "namespace" = Except.ok [ruleHNgjson]
    ∧ EvaluateClusterInfo storeUniform infoSmall = Except.ok (
      (infoSmall.Pods.map (fun p => resourceFindings [ruleHNgjson]
        (marshalPod p) ("Pod/" ++ p.Namespace ++ "/" ++ p.Name))).flatten
      ++ (infoSmall.Services.map (fun s => resourceFindings [ruleHNgjson]
        (marshalService s)
        ("Service/" ++ s.Namespace ++ "/" ++ s.Name))).flatten
      ++ ((infoSmall.RBAC.ClusterRoles.map (fun r =>
            resourceFindings [ruleHNgjson] r.Doc
              ("ClusterRole/" ++ r.Name))).flatten
          ++ (infoSmall.RBAC.Roles.map (fun r =>
            resourceFindings [ruleHNgjson] r.Doc
              ("Role/" ++ r.Namespace ++ "/" ++ r.Name))).flatten)
      ++ (infoSmall.Namespaces.map (fun ns => resourceFindings [ruleHNgjson]
            (marshalNamespaceJoined ns infoSmall.NetworkPolicies)
            ("Namespace/" ++ ns.Name))).flatten) :=
  ⟨rfl, rfl, rfl, rfl,
    c8_ordering storeUniform infoSmall [ruleHNgjson] [ruleHNgjson]
      [ruleHNgjson] [ruleHNgjson] rfl rfl rfl rfl⟩

/-- Claim C10: within the RBAC type, the output splits into a block of
findings whose identifiers are `ClusterRole/<name>` followed by a block
whose identifiers are `Role/<namespace>/<name>`. -/
theorem c10_rbac_order (store : RuleStore) (rbac : RBACInfo)
    (l : List SecurityFinding)
    (h : evaluateRBAC store rbac = Except.ok l) :
    ∃ A B, l = A ++ B
      ∧ (∀ f ∈ A, ∃ n, f.Resource = "ClusterRole/" ++ n)
      ∧ (∀ f ∈ B, ∃ ns n, f.Resource = "Role/" ++ ns ++ "/" ++ n) := by
  cases hru : store "rbac" with
  | error e => simp [evaluateRBAC, hru] at h
  | ok rules =>
    rw [evaluateRBAC_eq store rules rbac hru] at h
    injection h with h
    refine ⟨_, _, h.symm, ?_, ?_⟩
    · intro f hf
      simp only [List.mem_flatten, List.mem_map] at hf
      obtain ⟨lf, ⟨r, _, rfl⟩, hfl⟩ := hf
      exact ⟨r.Name, mem_resourceFindings_resource hfl⟩
    · intro f hf
      simp only [List.mem_flatten, List.mem_map] at hf
      obtain ⟨lf, ⟨r, _, rfl⟩, hfl⟩ := hf
      exact ⟨r.Namespace, r.Name, mem_resourceFindings_resource hfl⟩

/-- A store serving the resolvable host-network rule for RBAC. -/
def storeRbac : RuleStore :=
  fun t => if t = "rbac" then Except.ok [ruleHNgjson] else Except.ok []

/-- A cluster role whose document makes the rule fire. -/
def crW : ClusterRoleDoc :=
  { Name := "cluster-admin", Doc := Json.obj [("host_network", Json.bool true)] }

/-- A namespaced role whose document makes the rule fire. -/
def roleW : RoleDoc :=
  { Name := "edit", Namespace := "default",
    Doc := Json.obj [("host_network", Json.bool true)] }

/-- RBAC data with one firing cluster role and one firing role. -/
def rbacW : RBACInfo :=
  { ClusterRoles := [crW], ClusterRoleBindings := [], Roles := [roleW],
    RoleBindings := [], ServiceAccounts := [] }

/-- The finding for the cluster role. -/
def findingCR : SecurityFinding :=
  { Severity := "MEDIUM", Category := "network",
    Resource := "ClusterRole/cluster-admin",
    Message := "Pod uses host network",
    Remediation := "Avoid using host network" }

/-- The finding for the namespaced role. -/
def findingR : SecurityFinding :=
  { Severity := "MEDIUM", Category := "network",
    Resource := "Role/default/edit", Message := "Pod uses host network",
    Remediation := "Avoid using host network" }

/-- Witness for `c10_rbac_order` on concrete RBAC data producing one
finding of each family. -/
theorem c10_rbac_order_witness :
    evaluateRBAC storeRbac rbacW = Except.ok [findingCR, findingR]
    ∧ ∃ A B, [findingCR, findingR] = A ++ B
      ∧ (∀ f ∈ A, ∃ n, f.Resource = "ClusterRole/" ++ n)
      ∧ (∀ f ∈ B, ∃ ns n, f.Resource = "Role/" ++ ns ++ "/" ++ n) :=
  ⟨rfl, c10_rbac_order storeRbac rbacW [findingCR, findingR] rfl⟩

/-- A string wrapped in a given quote character — the shape of a quoted
string literal on the right of `==`. -/
def quoteWrap (qc : Char) (s : String) : String := ⟨qc :: (s.data ++ [qc])⟩

/-- The character list underlying a quote-wrapped string. -/
theorem quoteWrap_data (qc : Char) (s : String) :
    (quoteWrap qc s).data = qc :: (s.data ++ [qc]) := rfl

/-- `dropWhile` is the identity when the head (if any) fails the
predicate. -/
theorem dropWhile_head_false {p : Char → Bool} :
    ∀ (l : List Char), (∀ c, l.head? = some c → p c = false) →
      l.dropWhile p = l
  | [], _ => rfl
  | a :: l, h => by
    have ha := h a rfl
    simp [List.dropWhile_cons, ha]

/-- `strings.Trim(expected, "'\"")` peels exactly the wrapping quotes
when the wrapped string itself neither starts nor ends with a quote. -/
theorem goTrimQuotes_quoteWrap (qc : Char) (s : String)
    (hqc : isQuoteChar qc = true)
    (hhead : ∀ c, s.data.head? = some c → isQuoteChar c = false)
    (hlast : ∀ c, s.data.getLast? = some c → isQuoteChar c = false) :
    goTrimQuotes (quoteWrap qc s) = s := by
  obtain ⟨sd⟩ := s
  simp only [goTrimQuotes, goTrimChars, quoteWrap_data]
  cases sd with
  | nil =>
    simp [List.dropWhile, hqc]
  | cons a l =>
    have ha : isQuoteChar a = false := hhead a rfl
    simp only [List.dropWhile_cons, hqc, List.cons_append, ha, if_true,
      if_false, Bool.false_eq_true, ite_false, ite_true]
    rw [List.reverse_cons, List.reverse_append]
    simp only [List.reverse_cons, List.reverse_nil, List.nil_append,
      List.cons_append, List.dropWhile_cons, hqc, ite_true]
    rw [dropWhile_head_false (l.reverse ++ [a]) ?hh]
    case hh =>
      intro c hc
      rw [← List.reverse_cons] at hc
      rw [List.head?_reverse] at hc
      exact hlast c hc
    rw [← List.reverse_cons, List.reverse_reverse]

/-- A quote-wrapped string differs from any string that does not start
with a quote character. -/
theorem quoteWrap_ne (qc : Char) (s : String) (hqc : isQuoteChar qc = true)
    (t : String) (ht : ∀ c, t.data.head? = some c → isQuoteChar c = false) :
    quoteWrap qc s ≠ t := by
  intro h
  have h2 : (quoteWrap qc s).data.head? = t.data.head? := by rw [h]
  rw [quoteWrap_data] at h2
  simp only [List.head?_cons] at h2
  have h3 := ht qc h2.symm
  rw [hqc] at h3
  exact Bool.noConfusion h3

/-- Equal quote-wrapped strings wrap equal strings. -/
theorem quoteWrap_inj_str {qc qc2 : Char} {s s2 : String}
    (h : quoteWrap qc s = quoteWrap qc2 s2) : s = s2 := by
  have hd : (quoteWrap qc s).data = (quoteWrap qc2 s2).data := by rw [h]
  rw [quoteWrap_data, quoteWrap_data] at hd
  injection hd with h1 h2
  subst h1
  have h3 := (List.append_inj' h2 rfl).1
  exact congrArg String.mk h3

/-- Claim C6 as amended: for a condition `==` followed (after space
trimming) by a quoted string literal whose content is not `default`
(the literals `'default'` and `"default"` are the exception the
counterexample exhibits: for them an empty string form also fails),
the condition fails exactly when the value's string form equals the
unquoted literal. -/
theorem c6_amended (value : Option Json) (condition description : String)
    (qc : Char) (s : String) (pre post : String)
    (hqc : isQuoteChar qc = true)
    (hsplit : goSplitN2 (goTrimSpace condition) "==" = some (pre, post))
    (hq : goTrimSpace post = quoteWrap qc s)
    (hnd : s ≠ "default")
    (hhead : ∀ c, s.data.head? = some c → isQuoteChar c = false)
    (hlast : ∀ c, s.data.getLast? = some c → isQuoteChar c = false) :
    evaluateCondition value condition description
      = if s = resultString value then (false, description)
        else (true, "") := by
  have hcont : goContains (goTrimSpace condition) "==" = true := by
    rw [goContains, hsplit]
    rfl
  have hne1 : quoteWrap qc s ≠ "true" := by
    refine quoteWrap_ne qc s hqc "true" ?_
    intro c hc
    have h : some 't' = some c := hc
    injection h with h
    subst h
    rfl
  have hne2 : quoteWrap qc s ≠ "false" := by
    refine quoteWrap_ne qc s hqc "false" ?_
    intro c hc
    have h : some 'f' = some c := hc
    injection h with h
    subst h
    rfl
  have hne3 : quoteWrap qc s ≠ "null" := by
    refine quoteWrap_ne qc s hqc "null" ?_
    intro c hc
    have h : some 'n' = some c := hc
    injection h with h
    subst h
    rfl
  have hne4 : quoteWrap qc s ≠ "0" := by
    refine quoteWrap_ne qc s hqc "0" ?_
    intro c hc
    have h : some '0' = some c := hc
    injection h with h
    subst h
    rfl
  have hne5 : quoteWrap qc s ≠ "'default'" := by
    intro h
    have h2 : quoteWrap qc s = quoteWrap '\'' "default" := h
    exact hnd (quoteWrap_inj_str h2)
  have hne6 : quoteWrap qc s ≠ "\"default\"" := by
    intro h
    have h2 : quoteWrap qc s = quoteWrap '"' "default" := h
    exact hnd (quoteWrap_inj_str h2)
  have htrim := goTrimQuotes_quoteWrap qc s hqc hhead hlast
  simp only [evaluateCondition, hcont, hsplit, hq, if_true]
  simp only [hne1, hne2, hne3, hne4, hne5, hne6, htrim, if_false,
    ite_false, false_or, or_self, if_neg, not_false_iff]

/-- Witness for `c6_amended`: condition `== 'root'` against a value
whose string form is `root`. -/
theorem c6_amended_witness :
    isQuoteChar '\'' = true
    ∧ goSplitN2 (goTrimSpace "== 'root'") "==" = some ("", " 'root'")
    ∧ goTrimSpace " 'root'" = quoteWrap '\'' "root"
    ∧ ("root" : String) ≠ "default"
    ∧ evaluateCondition (some (Json.str "root")) "== 'root'" "desc"
      = (if ("root" : String) = resultString (some (Json.str "root")) then
          (false, "desc")
        else (true, "")) :=
  ⟨rfl, rfl, rfl, by decide,
    c6_amended (some (Json.str "root")) "== 'root'" "desc" '\'' "root"
      "" " 'root'" rfl rfl rfl (by decide)
      (by
        intro c hc
        have h : some 'r' = some c := hc
        injection h with h
        subst h
        rfl)
      (by
        intro c hc
        have h : some 't' = some c := hc
        injection h with h
        subst h
        rfl)⟩
